import Mathlib

/-!
Verification development for the DEMA backtesting data module
(`src/data/datamodule.py`).  The Python module is shallowly embedded:

* epoch-millisecond timestamps are `Int` (Python ints are unbounded);
* the float arithmetic of the pagination loop (`remaining_ticks`,
  `asked_ticks`, `np.around`) is modelled exactly over `ℚ`.  Every value
  that `np.around` is applied to in the source is an exact integer in this
  model (either `data_to - start_date` or `1000 * duration`), so the
  difference between NumPy's round-half-even and Mathlib's `round`
  (round-half-up) never materialises;
* the exchange (`ccxt`) is an external collaborator and is abstracted as a
  fetch oracle `Fetch`; the `idealFetch` oracle returns exactly the
  requested candle grid, which is the behaviour the specification assumes;
* the `while` loop of `download_data_for_pair` is given explicit fuel; the
  termination theorem for claim C6 proves that `(data_to - from).toNat`
  fuel always suffices, so the fuelled function is total on the inputs the
  module can reach;
* file-system state for one pair's cache file is the inductive
  `CacheFile`; Python's `return False` sentinel, uncaught exceptions
  (`json.loads` failures, `list.index` `ValueError`, `IndexError` on an
  empty frame) and normal results are distinguished by `PairResult`.
-/

/-! ## Time constants (datamodule.py lines 19-22) -/

def msec : Int := 1000

def minute : Int := 60 * msec

def hour : Int := 60 * minute

/-! ## Candles and dataframe rows -/

/-- One OHLCV candle as returned by `exchange.fetch_ohlcv`:
`[timestamp, open, high, low, close, volume]`. -/
structure Candle where
  time : Int
  open_ : ℚ
  high : ℚ
  low : ℚ
  close : ℚ
  volume : ℚ
deriving DecidableEq, Repr

/-- A row of the pandas DataFrame built in `download_data_for_pair`:
the candle columns plus the added `pair` column. -/
structure Row extends Candle where
  pair : String
deriving DecidableEq, Repr

/-- The exchange's paginated OHLCV endpoint: `fetch_ohlcv(since, limit)`.
The symbol and timeframe arguments are fixed per module instance and are
dropped.  The oracle is arbitrary: it may return fewer candles than
requested, or none at all. -/
def Fetch : Type := Int → Nat → List Candle

/-! ## `download_data_for_pair` (lines 96-132)

The `while start_date < data_to` loop is embedded with explicit fuel.
`remaining_ticks` is Python float division, modelled exactly in `ℚ`;
`int(asked_ticks)` truncates (`asked_ticks` is nonnegative whenever the
loop body runs with a positive duration, so `⌊·⌋.toNat` is faithful);
`np.around` is `round`. -/

def fetch_ohlcv_limit : ℚ := 1000

def downloadLoop (fetch : Fetch) (timeframe_calc data_to : Int) :
    Nat → Int → List Candle → Option (List Candle)
  | 0, start_date, acc => if start_date < data_to then none else some acc
  | fuel + 1, start_date, acc =>
    if start_date < data_to then
      let remaining_ticks : ℚ := ((data_to - start_date : Int) : ℚ) / ((timeframe_calc : Int) : ℚ)
      let asked_ticks : ℚ := min remaining_ticks fetch_ohlcv_limit
      let result := fetch start_date ⌊asked_ticks⌋.toNat
      downloadLoop fetch timeframe_calc data_to fuel
        (start_date + round (asked_ticks * ((timeframe_calc : Int) : ℚ))) (acc ++ result)
    else some acc

/-- Fuel that (provably, see the claim C6 theorem) always suffices:
the loop advances its cursor by at least one millisecond per iteration. -/
def downloadFuel (data_from data_to : Int) : Nat := (data_to - data_from).toNat

/-- `download_data_for_pair(pair, data_from, data_to)`: run the pagination
loop and attach the `pair` column.  `none` means the fuelled model ran out
of fuel, i.e. the Python loop would not have terminated within the bound. -/
def download_data_for_pair (fetch : Fetch) (pair : String)
    (data_from data_to timeframe_calc : Int) : Option (List Row) :=
  (downloadLoop fetch timeframe_calc data_to (downloadFuel data_from data_to) data_from []).map
    (List.map (fun c => ⟨c, pair⟩))

/-! ## `config_timeframe_calc` (lines 134-153)

`re.match(r"([0-9]+)([mdh])", timeframe, re.I)` anchors at the start only:
it succeeds exactly when the string begins with a nonempty digit run
followed by one of `m d h M D H` (the unit characters are not digits, so
the greedy `[0-9]+` never needs to backtrack).  `re.split(r'([0-9]+)', s)`
puts the first digit run in `items[1]` and the following digit-free chunk
in `items[2]`.  A `SystemExit` is `Except.error ()`; the `Option Int`
payload is the `timeframe_calc` attribute, which stays `None` unless one
of the two `if` branches assigns it. -/

def tfUnits : List Char := ['m', 'd', 'h', 'M', 'D', 'H']

def tfMatch (s : List Char) : Bool :=
  decide (s.takeWhile Char.isDigit ≠ []) &&
    match (s.dropWhile Char.isDigit).head? with
    | some c => c ∈ tfUnits
    | none => false

def digitVal (c : Char) : Int := (c.toNat : Int) - 48

/-- Python `int` applied to a decimal digit string. -/
def digitsToInt (ds : List Char) : Int := ds.foldl (fun acc c => 10 * acc + digitVal c) 0

def config_timeframe_calc (timeframe : List Char) : Except Unit (Option Int) :=
  if tfMatch timeframe = false then .error ()
  else
    let items1 := timeframe.takeWhile Char.isDigit
    let items2 := (timeframe.dropWhile Char.isDigit).takeWhile (fun c => !c.isDigit)
    if items2 = ['m'] then .ok (some (digitsToInt items1 * minute))
    else if items2 = ['h'] then .ok (some (digitsToInt items1 * hour))
    else .ok none

/-! ## `load_exchange` (lines 41-72) and `config_from_to` (lines 155-175)

The ccxt exchange object is abstracted by the observable facts the code
branches on.  `parse8601` returns `none` for unparsable dates (ccxt
returns Python `None` rather than raising).  `raise SystemExit` is
`Except.error ()`.  Crucially, the final `else` branch of
`config_from_to` only prints an error message and falls through, leaving
`backtesting_to` as `None`: in the model the function always returns
`Except.ok`. -/

structure ExchangeEnv where
  /-- `getattr(ccxt, exchange_id)` succeeds. -/
  exchangeExists : Bool
  /-- `exchange.has["fetchOHLCV"]`. -/
  hasFetchOHLCV : Bool
  /-- `hasattr(self.exchange, 'timeframes')`. -/
  hasTimeframes : Bool
  /-- the keys of `exchange.timeframes`. -/
  timeframes : List String
  /-- `exchange.parse8601`, `none` for a malformed date string. -/
  parse8601 : String → Option Int
  /-- `exchange.milliseconds()`. -/
  milliseconds : Int

structure RunConfig where
  exchange : String
  timeframe : String
  backtesting_from : String
  backtesting_to : String
  backtesting_till_now : String

def load_exchange (env : ExchangeEnv) (config : RunConfig) : Except Unit Unit :=
  if env.exchangeExists = false then .error ()
  else if env.hasFetchOHLCV = false then .error ()
  else if env.hasTimeframes = false ∨ config.timeframe ∉ env.timeframes then .error ()
  else .ok ()

/-- The two window fields set by `config_from_to`; `none` models Python
`None` (either never assigned, or assigned a failed `parse8601`). -/
structure FromTo where
  backtesting_from : Option Int
  backtesting_to : Option Int
deriving DecidableEq, Repr

def config_from_to (env : ExchangeEnv) (config : RunConfig) : Except Unit FromTo :=
  let f := env.parse8601 (config.backtesting_from ++ "T00:00:00Z")
  if config.backtesting_till_now = "True" then
    .ok ⟨f, some env.milliseconds⟩
  else if config.backtesting_till_now = "False" then
    .ok ⟨f, env.parse8601 (config.backtesting_to ++ "T00:00:00Z")⟩
  else
    -- prints "[ERROR] Something went wrong parsing config..." and returns:
    -- no `raise`, `self.backtesting_to` is never assigned.
    .ok ⟨f, none⟩

/-! ## Cache state and per-pair results

`CacheFile` is the state of the one cache file a pair owns.
`read_data_from_datafile` catches `FileNotFoundError` and any other read
error and returns Python `False` (`PairResult.sentinelFalse`); a file
whose contents fail `json.loads` raises an uncaught exception
(`PairResult.fatal`), as do `IndexError` on an empty frame and the
`ValueError` of `list.index` during slicing.  `PairResult.diverge` marks
the fuelled download model running out of fuel (`D ≥ 1` rules it out). -/

inductive CacheFile where
  | absent
  | unreadable
  | invalidJson
  | valid (rows : List Row)
deriving DecidableEq, Repr

def fileExists : CacheFile → Bool
  | .absent => false
  | _ => true

/-- A call to `download_data_for_pair` performed during a `get`:
its `data_from`, `data_to` and `save` arguments. -/
structure DLCall where
  dfrom : Int
  dto : Int
  persist : Bool
deriving DecidableEq, Repr

inductive PairResult where
  | series (df : List Row)
  | sentinelFalse
  | fatal
  | diverge
deriving DecidableEq, Repr

/-- What a per-pair `get` leaves behind: the value stored into
`history_data[pair]`, the cache file afterwards, and the download calls
that were made. -/
structure GetOutcome where
  result : PairResult
  cache : CacheFile
  downloads : List DLCall
deriving DecidableEq, Repr

/-- Python `list.index`: position of the first occurrence, `ValueError`
(here `none`) if absent. -/
def listIndex (x : Int) : List Int → Option Nat
  | [] => none
  | y :: ys => if y = x then some 0 else (listIndex x ys).map (· + 1)

def times (df : List Row) : List Int := df.map (fun r => r.time)

/-! ## `read_data_from_datafile` (lines 208-261) -/

/-- Lines 241-245: `if self.backtesting_from < df_begin`, download the
"before" gap with `save=False` and prepend. -/
def readStageBefore (fetch : Fetch) (D bt_from : Int) (pair : String)
    (rows : List Row) (df_begin : Int) : Option (List Row × List DLCall) :=
  if bt_from < df_begin then
    match download_data_for_pair fetch pair bt_from df_begin D with
    | some prev_df => some (prev_df ++ rows, [⟨bt_from, df_begin, false⟩])
    | none => none
  else some (rows, [])

/-- Lines 247-251: `if final_timestamp > df_end`, download the "after"
gap with `save=False` and append.  Note the download starts at `df_end`
itself. -/
def readStageAfter (fetch : Fetch) (D bt_to : Int) (pair : String)
    (df1 : List Row) (df_end : Int) : Option (List Row × List DLCall) :=
  if bt_to - D > df_end then
    match download_data_for_pair fetch pair df_end bt_to D with
    | some new_df => some (df1 ++ new_df, [⟨df_end, bt_to, false⟩])
    | none => none
  else some (df1, [])

/-- Lines 257-259: `df[index_list.index(backtesting_from) :
index_list.index(final_timestamp) + 1]`; `none` is the `ValueError` of
`list.index`. -/
def readSlice (df : List Row) (bt_from final_timestamp : Int) : Option (List Row) :=
  match listIndex bt_from (times df), listIndex final_timestamp (times df) with
  | some i, some j => some ((df.drop i).take (j + 1 - i))
  | _, _ => none

def readWithBounds (fetch : Fetch) (D bt_from bt_to : Int) (pair : String)
    (rows : List Row) (df_begin df_end : Int) : GetOutcome :=
  match readStageBefore fetch D bt_from pair rows df_begin with
  | none => ⟨.diverge, .valid rows, [⟨bt_from, df_begin, false⟩]⟩
  | some (df1, dl1) =>
    match readStageAfter fetch D bt_to pair df1 df_end with
    | none => ⟨.diverge, .valid rows, dl1 ++ [⟨df_end, bt_to, false⟩]⟩
    | some (df2, dl2) =>
      match readSlice df2 bt_from (bt_to - D) with
      | some df => ⟨.series df, .valid df, dl1 ++ dl2⟩  -- line 260: save_dataframe(pair, df)
      | none => ⟨.fatal, .valid rows, dl1 ++ dl2⟩       -- ValueError, file unchanged

def read_data_from_datafile (fetch : Fetch) (D bt_from bt_to : Int) (pair : String) :
    CacheFile → GetOutcome
  | .absent => ⟨.sentinelFalse, .absent, []⟩       -- FileNotFoundError caught, `return False`
  | .unreadable => ⟨.sentinelFalse, .unreadable, []⟩  -- bare `except`, `return False`
  | .invalidJson => ⟨.fatal, .invalidJson, []⟩     -- json.loads raises, uncaught
  | .valid rows =>
    -- `index_list[0]` / `index_list[-1]`: IndexError on an empty frame.
    match rows.head?, rows.getLast? with
    | some r0, some rN => readWithBounds fetch D bt_from bt_to pair rows r0.time rN.time
    | _, _ => ⟨.fatal, .valid rows, []⟩

/-! ## `load_historical_data` (lines 79-94), one pair

`check_datafolder` reports whether the datafile exists (its directory
side effect is modelled separately below); a missing file goes to the
full download with `save=True` (which persists via `save_dataframe`),
an existing file goes to `read_data_from_datafile`. -/

def load_historical_data_pair (fetch : Fetch) (D bt_from bt_to : Int) (pair : String)
    (cache : CacheFile) : GetOutcome :=
  if fileExists cache then read_data_from_datafile fetch D bt_from bt_to pair cache
  else
    match download_data_for_pair fetch pair bt_from bt_to D with
    | some df => ⟨.series df, .valid df, [⟨bt_from, bt_to, true⟩]⟩
    | none => ⟨.diverge, cache, [⟨bt_from, bt_to, true⟩]⟩

/-! ## The ideal exchange and candle grids

`idealFetch` is the exchange behaviour the specification's guarantees
presuppose: `fetch_ohlcv(since, limit)` returns exactly `limit` candles
at `since, since + D, ...`.  `progC a D n` is that candle grid. -/

def mkC (t : Int) : Candle := ⟨t, 0, 0, 0, 0, 0⟩

def idealFetch (D : Int) : Fetch := fun since limit =>
  (List.range limit).map (fun i : Nat => mkC (since + (i : Int) * D))

def progC (a D : Int) (n : Nat) : List Candle :=
  (List.range n).map (fun i : Nat => mkC (a + (i : Int) * D))

def progI (a D : Int) (n : Nat) : List Int :=
  (List.range n).map (fun i : Nat => a + (i : Int) * D)

def progR (pair : String) (a D : Int) (n : Nat) : List Row :=
  (progC a D n).map (fun c => ⟨c, pair⟩)

/-! ## File-system effects: `check_datafolder` (177-192),
`create_directory` (194-206), `save_dataframe` (263-279),
`generate_datafile_name` (281-289), `remove_backtesting_file` (291-302)

A path is its list of segments; the file system is the list of existing
paths.  `os.makedirs` creates the target directory together with every
missing intermediate directory. -/

abbrev FsPath := List String

/-- `"data-{coin}{base}{timeframe}.json"` for `pair = "coin/base"`. -/
def generate_datafile_name (pair timeframe : String) : String :=
  let parts := pair.splitOn "/"
  "data-" ++ parts.headD "" ++ (parts.drop 1).headD "" ++ timeframe ++ ".json"

def exchange_path (exchange : String) : FsPath := ["data", "backtesting-data", exchange]

def datafile_path (exchange pair timeframe : String) : FsPath :=
  exchange_path exchange ++ [generate_datafile_name pair timeframe]

/-- The directories `os.makedirs p` brings into existence: every nonempty
prefix of `p` (missing intermediate directories included). -/
def makedirsPaths (p : FsPath) : List FsPath :=
  (List.range p.length).map (fun i => p.take (i + 1))

/-- `check_datafolder`: if the exchange directory does not exist, create
it (with intermediates); then report whether the datafile exists.
Returns the answer and the list of directories actually created. -/
def check_datafolder (fs : List FsPath) (exchange pair timeframe : String) :
    Bool × List FsPath :=
  let created :=
    if exchange_path exchange ∈ fs then []
    else (makedirsPaths (exchange_path exchange)).filter (fun p => p ∉ fs)
  (decide (datafile_path exchange pair timeframe ∈ fs), created)

/-- The paths `save_dataframe` writes: exactly the pair's datafile. -/
def save_dataframe_touched (exchange pair timeframe : String) : List FsPath :=
  [datafile_path exchange pair timeframe]

/-- The paths `remove_backtesting_file` removes: exactly the datafile. -/
def remove_backtesting_file_touched (exchange pair timeframe : String) : List FsPath :=
  [datafile_path exchange pair timeframe]

/-! ## JSON values and `save_dataframe` (lines 263-279)

`df.to_json(orient="records")` produces the *string* rendering of the
array of row records; `json.dump(df_json, outfile)` then serialises that
string.  So the JSON value stored in the file is a `Json.str`, wrapping
the rendered records array, not the array itself.  pandas' number
formatting is external; it is modelled by `Rat.repr`-style rendering,
which is irrelevant to every structural statement proved here. -/

inductive Json where
  | null
  | str (s : String)
  | num (q : ℚ)
  | arr (elems : List Json)
  | obj (fields : List (String × Json))

def Json.isArr : Json → Bool
  | .arr _ => true
  | _ => false

def Json.isStr : Json → Bool
  | .str _ => true
  | _ => false

def Json.keys : Json → List String
  | .obj fields => fields.map (fun kv => kv.1)
  | _ => []

def renderJson : Json → String
  | .null => "null"
  | .str s => "\x22" ++ s ++ "\x22"
  | .num q => toString q
  | .arr elems =>
    "[" ++ String.intercalate "," (elems.attach.map (fun e => renderJson e.1)) ++ "]"
  | .obj fields =>
    "\x7b" ++
      String.intercalate ","
        (fields.attach.map (fun kv => "\x22" ++ kv.1.1 ++ "\x22:" ++ renderJson kv.1.2)) ++
      "\x7d"
decreasing_by
  · have := List.sizeOf_lt_of_mem e.2
    simp only [Json.arr.sizeOf_spec]
    omega
  · have h1 := List.sizeOf_lt_of_mem kv.2
    have h2 : sizeOf kv.1.2 < sizeOf kv.1 := by
      obtain ⟨a, b⟩ := kv.1
      simp only [Prod.mk.sizeOf_spec]
      omega
    simp only [Json.obj.sizeOf_spec]
    omega

/-- One dataframe row as the JSON record pandas emits for it (column
order `time, open, high, low, close, volume` plus the added `pair`). -/
def rowJson (r : Row) : Json :=
  .obj [("time", .num (r.time : ℚ)), ("open", .num r.open_), ("high", .num r.high),
        ("low", .num r.low), ("close", .num r.close), ("volume", .num r.volume),
        ("pair", .str r.pair)]

/-- The JSON value of `df.to_json(orient="records")`'s output string. -/
def to_json_records (df : List Row) : Json := .arr (df.map rowJson)

/-- The top-level JSON value `save_dataframe` leaves in the cache file:
`json.dump(df_json, outfile)` where `df_json` is already a string. -/
def save_dataframe_content (df : List Row) : Json :=
  .str (renderJson (to_json_records df))


/-! ## Candle-grid lemmas -/

theorem progC_eq_map (a D : Int) (n : Nat) : progC a D n = (progI a D n).map mkC := by
  simp [progC, progI, List.map_map, Function.comp_def]

theorem progR_eq_map (pair : String) (a D : Int) (n : Nat) :
    progR pair a D n = (progI a D n).map (fun t => ⟨mkC t, pair⟩) := by
  simp [progR, progC_eq_map, List.map_map, Function.comp_def]

theorem times_progR (pair : String) (a D : Int) (n : Nat) :
    times (progR pair a D n) = progI a D n := by
  simp [times, progR_eq_map, List.map_map, Function.comp_def, mkC]

theorem progI_zero (a D : Int) : progI a D 0 = [] := rfl

theorem progI_length (a D : Int) (n : Nat) : (progI a D n).length = n := by
  simp [progI]

theorem progR_length (pair : String) (a D : Int) (n : Nat) :
    (progR pair a D n).length = n := by
  simp [progR_eq_map, progI_length]

theorem progI_succ_cons (a D : Int) (n : Nat) :
    progI a D (n + 1) = a :: progI (a + D) D n := by
  simp only [progI, List.range_succ_eq_map, List.map_cons, List.map_map]
  congr 1
  · simp
  · apply List.map_congr_left
    intro i _
    simp only [Function.comp_apply]
    push_cast
    ring

theorem progI_append (a D : Int) (m k : Nat) :
    progI a D (m + k) = progI a D m ++ progI (a + m * D) D k := by
  simp only [progI, List.range_add, List.map_append, List.map_map]
  congr 1
  apply List.map_congr_left
  intro i _
  simp only [Function.comp_apply]
  push_cast
  ring

theorem progC_append (a D : Int) (m k : Nat) :
    progC a D (m + k) = progC a D m ++ progC (a + m * D) D k := by
  simp [progC_eq_map, progI_append]

theorem progR_append (pair : String) (a D : Int) (m k : Nat) :
    progR pair a D (m + k) = progR pair a D m ++ progR pair (a + m * D) D k := by
  simp [progR_eq_map, progI_append]

theorem progI_head? (a D : Int) (n : Nat) (hn : 1 ≤ n) :
    (progI a D n).head? = some a := by
  obtain ⟨n₀, rfl⟩ : ∃ n₀, n = n₀ + 1 := ⟨n - 1, by omega⟩
  rw [progI_succ_cons]
  rfl

theorem progI_concat (a D : Int) (n : Nat) :
    progI a D (n + 1) = progI a D n ++ [a + n * D] := by
  simp [progI, List.range_succ]

theorem progI_getLast? (a D : Int) (n : Nat) (hn : 1 ≤ n) :
    (progI a D n).getLast? = some (a + ((n : Int) - 1) * D) := by
  obtain ⟨n₀, rfl⟩ : ∃ n₀, n = n₀ + 1 := ⟨n - 1, by omega⟩
  rw [progI_concat, List.getLast?_concat]
  congr 1
  push_cast
  ring

theorem progR_head? (pair : String) (a D : Int) (n : Nat) (hn : 1 ≤ n) :
    (progR pair a D n).head? = some ⟨mkC a, pair⟩ := by
  rw [progR_eq_map, List.head?_map, progI_head? a D n hn]
  rfl

theorem progR_getLast? (pair : String) (a D : Int) (n : Nat) (hn : 1 ≤ n) :
    (progR pair a D n).getLast? = some ⟨mkC (a + ((n : Int) - 1) * D), pair⟩ := by
  rw [progR_eq_map, List.getLast?_map, progI_getLast? a D n hn]
  rfl

theorem progI_mem {a D : Int} {n : Nat} {x : Int} (hx : x ∈ progI a D n) :
    ∃ i : Nat, i < n ∧ x = a + i * D := by
  simp only [progI, List.mem_map, List.mem_range] at hx
  obtain ⟨i, hi, rfl⟩ := hx
  exact ⟨i, hi, rfl⟩

theorem progI_chain' (a D : Int) (n : Nat) :
    List.Chain' (fun x y => y - x = D) (progI a D n) := by
  induction n generalizing a with
  | zero => simp [progI_zero]
  | succ n₀ ih =>
    rw [progI_succ_cons]
    rcases n₀ with _ | n₁
    · simp [progI_zero]
    · rw [progI_succ_cons]
      refine List.Chain'.cons ?_ ?_
      · ring
      · have h := ih (a + D)
        rwa [progI_succ_cons] at h

theorem progI_nodup (a D : Int) (n : Nat) (hD : 1 ≤ D) :
    (progI a D n).Nodup := by
  have hinj : Function.Injective (fun i : Nat => a + (i : Int) * D) := by
    intro i j hij
    simp only at hij
    have h1 : (i : Int) * D = j * D := by omega
    have hDne : D ≠ 0 := by omega
    have h2 := mul_right_cancel₀ hDne h1
    exact_mod_cast h2
  exact (List.nodup_range n).map hinj

/-! ## `listIndex` lemmas -/

theorem listIndex_append_left {x : Int} {l₁ : List Int} {i : Nat}
    (h : listIndex x l₁ = some i) (l₂ : List Int) :
    listIndex x (l₁ ++ l₂) = some i := by
  induction l₁ generalizing i with
  | nil => simp [listIndex] at h
  | cons y ys ih =>
    by_cases hy : y = x
    · simp only [listIndex, if_pos hy] at h ⊢
      simpa using h
    · simp only [listIndex, if_neg hy, Option.map_eq_some'] at h
      obtain ⟨i₀, hi₀, rfl⟩ := h
      have h2 : listIndex x (ys ++ l₂) = some i₀ := ih hi₀
      simp only [List.cons_append, listIndex, if_neg hy, List.append_eq] at h2 ⊢
      rw [h2]
      rfl

theorem listIndex_append_right {x : Int} {l₁ : List Int}
    (h : listIndex x l₁ = none) (l₂ : List Int) :
    listIndex x (l₁ ++ l₂) = (listIndex x l₂).map (· + l₁.length) := by
  induction l₁ with
  | nil => simp [listIndex]
  | cons y ys ih =>
    by_cases hy : y = x
    · simp [listIndex, if_pos hy] at h
    · simp only [listIndex, if_neg hy, Option.map_eq_none'] at h
      have h2 := ih h
      simp only [List.cons_append, listIndex, if_neg hy, List.append_eq, List.length_cons] at h2 ⊢
      rw [h2, Option.map_map]
      rcases listIndex x l₂ with _ | j
      · rfl
      · simp only [Option.map_some', Function.comp_apply]
        congr 1

theorem listIndex_eq_none {x : Int} {l : List Int} (h : ∀ y ∈ l, y ≠ x) :
    listIndex x l = none := by
  induction l with
  | nil => rfl
  | cons y ys ih =>
    simp only [listIndex, if_neg (h y (by simp)), Option.map_eq_none']
    exact ih (fun z hz => h z (by simp [hz]))

theorem listIndex_progI (a D : Int) (hD : 1 ≤ D) :
    ∀ n m : Nat, m < n → listIndex (a + m * D) (progI a D n) = some m := by
  intro n
  induction n generalizing a with
  | zero => omega
  | succ n₀ ih =>
    intro m hm
    rw [progI_succ_cons]
    rcases m with _ | m₀
    · simp [listIndex]
    · have hpos : (0 : Int) < ((m₀ + 1 : Nat) : Int) * D := by
        have h1 : (0 : Int) < ((m₀ + 1 : Nat) : Int) := by exact_mod_cast Nat.succ_pos m₀
        have hD0 : (0 : Int) < D := by omega
        exact mul_pos h1 hD0
      have hne : ¬ (a = a + ((m₀ + 1 : Nat) : Int) * D) := by omega
      simp only [listIndex, if_neg hne]
      have key : a + ((m₀ + 1 : Nat) : Int) * D = (a + D) + ((m₀ : Nat) : Int) * D := by
        push_cast
        ring
      rw [key, ih (a + D) m₀ (by omega)]
      rfl

/-! ## Pagination-loop lemmas -/

theorem idealFetch_eq_progC (D since : Int) (limit : Nat) :
    idealFetch D since limit = progC since D limit := rfl

/-- The cursor advance of one loop iteration:
`np.around(asked_ticks * duration)` is exactly
`min (data_to - start_date) (1000 * duration)` — an integer, so the
rounding mode is immaterial. -/
theorem downloadAdvance_eq (D data_to start_date : Int) (hD : 1 ≤ D) :
    round (min (((data_to - start_date : Int) : ℚ) / ((D : Int) : ℚ)) fetch_ohlcv_limit
        * ((D : Int) : ℚ)) = min (data_to - start_date) (1000 * D) := by
  have hD0 : (0 : ℚ) < ((D : Int) : ℚ) := by exact_mod_cast (by omega : (0 : ℤ) < D)
  have hDne : ((D : Int) : ℚ) ≠ 0 := ne_of_gt hD0
  rcases le_or_lt (data_to - start_date) (1000 * D) with h | h
  · have hle : ((data_to - start_date : Int) : ℚ) / ((D : Int) : ℚ) ≤ fetch_ohlcv_limit := by
      rw [fetch_ohlcv_limit, div_le_iff₀ hD0]
      calc ((data_to - start_date : Int) : ℚ) ≤ ((1000 * D : Int) : ℚ) := by exact_mod_cast h
        _ = 1000 * ((D : Int) : ℚ) := by push_cast; ring
    rw [min_eq_left hle, div_mul_cancel₀ _ hDne, round_intCast, min_eq_left h]
  · have hge : fetch_ohlcv_limit ≤ ((data_to - start_date : Int) : ℚ) / ((D : Int) : ℚ) := by
      rw [fetch_ohlcv_limit, le_div_iff₀ hD0]
      calc (1000 : ℚ) * ((D : Int) : ℚ) = ((1000 * D : Int) : ℚ) := by push_cast; ring
        _ ≤ ((data_to - start_date : Int) : ℚ) := by exact_mod_cast le_of_lt h
    rw [min_eq_right hge, fetch_ohlcv_limit]
    rw [show (1000 : ℚ) * ((D : Int) : ℚ) = ((1000 * D : Int) : ℚ) by push_cast; ring,
      round_intCast, min_eq_right (le_of_lt h)]

/-- Termination of the `while` loop of `download_data_for_pair`: with a
positive duration, `(data_to - start).toNat` fuel always suffices, for
an arbitrary fetch oracle — the cursor advances by at least `1` per
iteration independently of what the exchange returns. -/
theorem downloadLoop_total (fetch : Fetch) (D data_to : Int) (hD : 1 ≤ D) :
    ∀ (fuel : Nat) (start_date : Int) (acc : List Candle),
      (data_to - start_date).toNat ≤ fuel →
      ∃ r, downloadLoop fetch D data_to fuel start_date acc = some r := by
  intro fuel
  induction fuel with
  | zero =>
    intro start acc hfuel
    have hns : ¬ start < data_to := by omega
    exact ⟨acc, by simp [downloadLoop, hns]⟩
  | succ fuel ih =>
    intro start acc hfuel
    by_cases hs : start < data_to
    · simp only [downloadLoop, if_pos hs]
      rw [downloadAdvance_eq D data_to start hD]
      apply ih
      have h1 : (1 : Int) ≤ min (data_to - start) (1000 * D) := by
        have h2 : (1000 : Int) ≤ 1000 * D := by nlinarith
        omega
      omega
    · exact ⟨acc, by simp [downloadLoop, hs]⟩

/-- Running the loop against the ideal exchange over an aligned window
`[a, a + n*D)` yields exactly the `n`-candle grid starting at `a`. -/
theorem downloadLoop_ideal (D : Int) (hD : 1 ≤ D) :
    ∀ (fuel n : Nat) (a : Int) (acc : List Candle), n ≤ fuel →
      downloadLoop (idealFetch D) D (a + n * D) fuel a acc = some (acc ++ progC a D n) := by
  intro fuel
  induction fuel with
  | zero =>
    intro n a acc hn
    have hn0 : n = 0 := by omega
    subst hn0
    simp [downloadLoop, progC]
  | succ fuel ih =>
    intro n a acc hn
    rcases Nat.eq_zero_or_pos n with hn0 | hpos
    · subst hn0
      simp [downloadLoop, progC]
    · have hs : a < a + (n : Int) * D := by
        have h0 : (0 : Int) < (n : Int) * D :=
          mul_pos (by exact_mod_cast hpos) (by omega)
        omega
      have hDne : ((D : Int) : ℚ) ≠ 0 := by
        exact_mod_cast (by omega : D ≠ 0)
      simp only [downloadLoop, if_pos hs]
      rw [show a + (n : Int) * D - a = (n : Int) * D from by ring]
      rw [show (((n : Int) * D : Int) : ℚ) = ((n : Nat) : ℚ) * ((D : Int) : ℚ) from by push_cast; ring]
      rw [mul_div_cancel_right₀ _ hDne]
      rw [show fetch_ohlcv_limit = ((1000 : Nat) : ℚ) from by norm_num [fetch_ohlcv_limit]]
      rw [← Nat.cast_min]
      have hm1 : 1 ≤ min n 1000 := le_min hpos (by norm_num)
      rw [show ⌊((min n 1000 : Nat) : ℚ)⌋.toNat = min n 1000 from by rw [Int.floor_natCast]; omega]
      rw [show round (((min n 1000 : Nat) : ℚ) * ((D : Int) : ℚ))
            = ((min n 1000 : Nat) : Int) * D from by
        rw [show ((min n 1000 : Nat) : ℚ) * ((D : Int) : ℚ)
              = ((((min n 1000 : Nat) : Int) * D : Int) : ℚ) from by push_cast; ring]
        exact round_intCast _]
      rw [idealFetch_eq_progC]
      rw [show a + (n : Int) * D
            = (a + ((min n 1000 : Nat) : Int) * D) + ((n - min n 1000 : Nat) : Int) * D from by
        push_cast [Nat.cast_sub (Nat.min_le_left n 1000)]
        ring]
      rw [ih (n - min n 1000) _ _ (by omega)]
      rw [List.append_assoc, ← progC_append,
        show min n 1000 + (n - min n 1000) = n from by omega]

theorem download_data_for_pair_total (fetch : Fetch) (pair : String)
    (data_from data_to D : Int) (hD : 1 ≤ D) :
    ∃ df, download_data_for_pair fetch pair data_from data_to D = some df := by
  obtain ⟨r, hr⟩ :=
    downloadLoop_total fetch D data_to hD (downloadFuel data_from data_to) data_from []
      (by unfold downloadFuel; omega)
  exact ⟨r.map (fun c => ⟨c, pair⟩), by simp [download_data_for_pair, hr]⟩

/-- Full download over an aligned window against the ideal exchange:
exactly the candle grid, with the pair column attached. -/
theorem download_data_for_pair_ideal (D : Int) (hD : 1 ≤ D) (pair : String)
    (a : Int) (n : Nat) :
    download_data_for_pair (idealFetch D) pair a (a + n * D) D =
      some (progR pair a D n) := by
  have hfuel : n ≤ downloadFuel a (a + n * D) := by
    have h1 : (n : Int) ≤ (n : Int) * D := le_mul_of_one_le_right (Int.natCast_nonneg n) hD
    unfold downloadFuel
    omega
  rw [download_data_for_pair, downloadLoop_ideal D hD _ n a [] hfuel]
  simp [progR]

/-! ## Per-pair `get` against the ideal exchange -/

theorem times_append (l₁ l₂ : List Row) : times (l₁ ++ l₂) = times l₁ ++ times l₂ := by
  simp [times]

/-- No cache file: full download with `save=True`, which persists. -/
theorem getPair_fresh (D : Int) (hD : 1 ≤ D) (pair : String) (b : Int) (N : Nat) :
    load_historical_data_pair (idealFetch D) D b (b + N * D) pair .absent =
      ⟨.series (progR pair b D N), .valid (progR pair b D N), [⟨b, b + N * D, true⟩]⟩ := by
  rw [load_historical_data_pair]
  simp [fileExists, download_data_for_pair_ideal D hD pair b N]

/-- Slicing an aligned cached series over exactly its own range returns
it whole. -/
theorem readSlice_whole (D : Int) (hD : 1 ≤ D) (pair : String) (b : Int)
    (N : Nat) (hN : 1 ≤ N) :
    readSlice (progR pair b D N) b (b + ((N : Int) - 1) * D) =
      some (progR pair b D N) := by
  have h0 : listIndex b (progI b D N) = some 0 := by
    have h := listIndex_progI b D hD N 0 hN
    simpa using h
  have hj : listIndex (b + ((N : Int) - 1) * D) (progI b D N) = some (N - 1) := by
    have h := listIndex_progI b D hD N (N - 1) (by omega)
    rwa [show ((N - 1 : Nat) : Int) = (N : Int) - 1 from by omega] at h
  rw [readSlice, times_progR, h0, hj]
  show some (List.take (N - 1 + 1 - 0) (List.drop 0 (progR pair b D N))) = _
  rw [show N - 1 + 1 - 0 = N from by omega, List.drop_zero]
  rw [List.take_of_length_le (le_of_eq (progR_length pair b D N))]

/-- Cache file exactly covering the requested aligned window: the read
path performs no download and returns (and re-persists) the cached rows
unchanged. -/
theorem getPair_cached_exact (D : Int) (hD : 1 ≤ D) (pair : String) (b : Int)
    (N : Nat) (hN : 1 ≤ N) :
    load_historical_data_pair (idealFetch D) D b (b + N * D) pair
        (.valid (progR pair b D N)) =
      ⟨.series (progR pair b D N), .valid (progR pair b D N), []⟩ := by
  have hb : readStageBefore (idealFetch D) D b pair (progR pair b D N) b =
      some (progR pair b D N, []) := by
    rw [readStageBefore]
    simp
  have ha : readStageAfter (idealFetch D) D (b + N * D) pair (progR pair b D N)
      (b + ((N : Int) - 1) * D) = some (progR pair b D N, []) := by
    rw [readStageAfter]
    have hne : ¬ (b + (N : Int) * D - D > b + ((N : Int) - 1) * D) := by
      have heq : b + (N : Int) * D - D = b + ((N : Int) - 1) * D := by ring
      omega
    rw [if_neg hne]
  have hsl : readSlice (progR pair b D N) b (b + (N : Int) * D - D) =
      some (progR pair b D N) := by
    rw [show b + (N : Int) * D - D = b + ((N : Int) - 1) * D from by ring]
    exact readSlice_whole D hD pair b N hN
  rw [load_historical_data_pair]
  rw [show fileExists (.valid (progR pair b D N)) = true from rfl]
  simp only [if_true]
  rw [read_data_from_datafile, progR_head? pair b D N hN, progR_getLast? pair b D N hN]
  simp [readWithBounds, mkC, hb, ha, hsl]

/-- The "before" gap download for an aligned cache starting at `T0`,
requested from `T0 - k*D`: `k` candles are prepended (none if `k = 0`). -/
theorem readStageBefore_ideal (D : Int) (hD : 1 ≤ D) (pair : String) (T0 : Int)
    (n k : Nat) :
    readStageBefore (idealFetch D) D (T0 - k * D) pair (progR pair T0 D n) T0 =
      some (progR pair (T0 - k * D) D (k + n),
        if k = 0 then [] else [⟨T0 - k * D, T0, false⟩]) := by
  rcases Nat.eq_zero_or_pos k with hk | hk
  · subst hk
    rw [readStageBefore]
    simp
  · have hlt : T0 - (k : Int) * D < T0 := by
      have hkD : (0 : Int) < (k : Int) * D := mul_pos (by exact_mod_cast hk) (by omega)
      omega
    have hdl := download_data_for_pair_ideal D hD pair (T0 - k * D) k
    rw [show T0 - (k : Int) * D + (k : Int) * D = T0 from by ring] at hdl
    have hap := progR_append pair (T0 - k * D) D k n
    rw [show T0 - (k : Int) * D + (k : Int) * D = T0 from by ring] at hap
    rw [readStageBefore, if_pos hlt]
    simp only [hdl]
    rw [← hap, if_neg (by omega : ¬ k = 0)]

/-- The "after" gap download for a cache ending at `T1`, requested up to
`T1 + (m+1)*D` with `m ≥ 1`: the download starts at `T1` itself and
appends `m + 1` candles, the first of which duplicates `T1`. -/
theorem readStageAfter_ideal (D : Int) (hD : 1 ≤ D) (pair : String) (T1 : Int)
    (m : Nat) (hm : 1 ≤ m) (df1 : List Row) :
    readStageAfter (idealFetch D) D (T1 + ((m + 1 : Nat) : Int) * D) pair df1 T1 =
      some (df1 ++ progR pair T1 D (m + 1), [⟨T1, T1 + ((m + 1 : Nat) : Int) * D, false⟩]) := by
  have hgt : T1 + ((m + 1 : Nat) : Int) * D - D > T1 := by
    have h1 : (0 : Int) < (m : Int) * D := mul_pos (by exact_mod_cast hm) (by omega)
    have h2 : ((m + 1 : Nat) : Int) * D = (m : Int) * D + D := by push_cast; ring
    omega
  have hdl := download_data_for_pair_ideal D hD pair T1 (m + 1)
  rw [readStageAfter, if_pos hgt]
  simp only [hdl]

/-- Slicing the concatenation of an aligned `p`-candle grid with a
`q`-candle grid that restarts at the first grid's last bucket: the slice
from the first bucket to the concatenation's last bucket is everything
(duplicate included). -/
theorem readSlice_glued (D : Int) (hD : 1 ≤ D) (pair : String) (b : Int)
    (p q : Nat) (hp : 1 ≤ p) (hq : 2 ≤ q) :
    readSlice (progR pair b D p ++ progR pair (b + ((p : Int) - 1) * D) D q)
        b (b + ((p : Int) - 1) * D + ((q : Int) - 1) * D) =
      some (progR pair b D p ++ progR pair (b + ((p : Int) - 1) * D) D q) := by
  have h0 : listIndex b (progI b D p) = some 0 := by
    have h := listIndex_progI b D hD p 0 hp
    simpa using h
  have hi : listIndex b (progI b D p ++ progI (b + ((p : Int) - 1) * D) D q) = some 0 :=
    listIndex_append_left h0 _
  have hnone : listIndex (b + ((p : Int) - 1) * D + ((q : Int) - 1) * D) (progI b D p) = none := by
    apply listIndex_eq_none
    intro y hy
    obtain ⟨i, hilt, rfl⟩ := progI_mem hy
    intro heq
    have hcan : (i : Int) * D = (((p : Int) - 1) + ((q : Int) - 1)) * D := by
      ring_nf at heq ⊢
      linarith
    have h2 := mul_right_cancel₀ (by omega : D ≠ 0) hcan
    omega
  have hj2 : listIndex (b + ((p : Int) - 1) * D + ((q : Int) - 1) * D)
      (progI (b + ((p : Int) - 1) * D) D q) = some (q - 1) := by
    have h := listIndex_progI (b + ((p : Int) - 1) * D) D hD q (q - 1) (by omega)
    rwa [show ((q - 1 : Nat) : Int) = (q : Int) - 1 from by omega] at h
  have hj : listIndex (b + ((p : Int) - 1) * D + ((q : Int) - 1) * D)
      (progI b D p ++ progI (b + ((p : Int) - 1) * D) D q) = some ((q - 1) + p) := by
    rw [listIndex_append_right hnone, hj2]
    simp [progI_length]
  have hlen : (progR pair b D p ++ progR pair (b + ((p : Int) - 1) * D) D q).length
      ≤ (q - 1) + p + 1 - 0 := by
    simp [progR_length]
    omega
  rw [readSlice, times_append, times_progR, times_progR, hi, hj]
  show some (List.take ((q - 1) + p + 1 - 0) (List.drop 0 _)) = _
  rw [List.drop_zero, List.take_of_length_le hlen]

/-- The cache-extension behaviour of the read path against the ideal
exchange.  The cache holds the aligned grid `[T0, T1]` (`n` candles,
`T1 = T0 + (n-1)*D`); the request is `[T0 - k*D, T1 + (m+1)*D)` with
`m ≥ 1`.  The "after" download starts at `T1` itself, so the returned
and re-persisted series is the `(k+n)`-grid from `T0 - k*D` followed by
the `(m+1)`-grid from `T1` — `n + k + m + 1` rows with `T1` duplicated. -/
theorem getPair_extension (D : Int) (hD : 1 ≤ D) (pair : String) (T0 : Int)
    (n k m : Nat) (hn : 1 ≤ n) (hm : 1 ≤ m) :
    load_historical_data_pair (idealFetch D) D (T0 - k * D)
        (T0 + ((n : Int) - 1) * D + ((m + 1 : Nat) : Int) * D) pair
        (.valid (progR pair T0 D n)) =
      ⟨.series (progR pair (T0 - k * D) D (k + n) ++
          progR pair (T0 + ((n : Int) - 1) * D) D (m + 1)),
        .valid (progR pair (T0 - k * D) D (k + n) ++
          progR pair (T0 + ((n : Int) - 1) * D) D (m + 1)),
        (if k = 0 then [] else [⟨T0 - k * D, T0, false⟩]) ++
          [⟨T0 + ((n : Int) - 1) * D,
            T0 + ((n : Int) - 1) * D + ((m + 1 : Nat) : Int) * D, false⟩]⟩ := by
  have hb := readStageBefore_ideal D hD pair T0 n k
  have ha := readStageAfter_ideal D hD pair (T0 + ((n : Int) - 1) * D) m hm
    (progR pair (T0 - k * D) D (k + n))
  have hsl : readSlice (progR pair (T0 - k * D) D (k + n) ++
        progR pair (T0 + ((n : Int) - 1) * D) D (m + 1))
      (T0 - k * D) (T0 + ((n : Int) - 1) * D + ((m + 1 : Nat) : Int) * D - D) =
      some (progR pair (T0 - k * D) D (k + n) ++
        progR pair (T0 + ((n : Int) - 1) * D) D (m + 1)) := by
    have h := readSlice_glued D hD pair (T0 - k * D) (k + n) (m + 1)
      (by omega) (by omega)
    rw [show T0 - (k : Int) * D + (((k + n : Nat) : Int) - 1) * D
          = T0 + ((n : Int) - 1) * D from by push_cast; ring] at h
    rwa [show T0 + ((n : Int) - 1) * D + (((m + 1 : Nat) : Int) - 1) * D
          = T0 + ((n : Int) - 1) * D + ((m + 1 : Nat) : Int) * D - D from by push_cast; ring] at h
  rw [load_historical_data_pair,
    show fileExists (.valid (progR pair T0 D n)) = true from rfl]
  simp only [if_true]
  rw [read_data_from_datafile, progR_head? pair T0 D n hn, progR_getLast? pair T0 D n hn]
  push_cast at ha hsl
  simp [readWithBounds, mkC, hb, ha, hsl]

/-! ## Timeframe-string lemmas -/

theorem takeWhile_all_append (p : Char → Bool) (ds : List Char) (u : Char)
    (rest : List Char) (hds : ∀ c ∈ ds, p c = true) (hu : p u = false) :
    (ds ++ u :: rest).takeWhile p = ds ∧ (ds ++ u :: rest).dropWhile p = u :: rest := by
  induction ds with
  | nil =>
    constructor
    · simp [List.takeWhile_cons, hu]
    · simp [List.dropWhile_cons, hu]
  | cons c cs ih =>
    have hc : p c = true := hds c (by simp)
    have hcs : ∀ x ∈ cs, p x = true := fun x hx => hds x (by simp [hx])
    obtain ⟨h1, h2⟩ := ih hcs
    constructor
    · simp [List.takeWhile_cons, hc, h1]
    · simp [List.dropWhile_cons, hc, h2]

theorem tfUnits_not_digit : ∀ u ∈ tfUnits, u.isDigit = false := by decide

/-- The validation regex `re.match(r"([0-9]+)([mdh])", s, re.I)` succeeds
exactly on strings starting with a nonempty digit run followed by one of
`m d h` in either case (anything may follow). -/
theorem tfMatch_iff (s : List Char) :
    tfMatch s = true ↔
      ∃ ds u rest, s = ds ++ u :: rest ∧ ds ≠ [] ∧
        (∀ c ∈ ds, c.isDigit = true) ∧ u ∈ tfUnits := by
  constructor
  · intro h
    rw [tfMatch, Bool.and_eq_true] at h
    obtain ⟨h1, h2⟩ := h
    have hds : s.takeWhile Char.isDigit ≠ [] := by simpa using h1
    rcases hdrop : s.dropWhile Char.isDigit with _ | ⟨u, rest⟩
    · rw [hdrop] at h2
      simp at h2
    · rw [hdrop] at h2
      simp only [List.head?_cons] at h2
      refine ⟨s.takeWhile Char.isDigit, u, rest, ?_, hds, ?_, by simpa using h2⟩
      · rw [← hdrop, List.takeWhile_append_dropWhile]
      · intro c hc
        exact List.mem_takeWhile_imp hc
  · rintro ⟨ds, u, rest, rfl, hds, hdig, hu⟩
    obtain ⟨h1, h2⟩ := takeWhile_all_append Char.isDigit ds u rest hdig (tfUnits_not_digit u hu)
    rw [tfMatch, Bool.and_eq_true, h1, h2]
    exact ⟨by simpa using hds, by simpa using hu⟩

/-- `config_timeframe_calc` raises `SystemExit` exactly when the regex
fails. -/
theorem config_timeframe_calc_error_iff (s : List Char) :
    config_timeframe_calc s = .error () ↔
      ¬ ∃ ds u rest, s = ds ++ u :: rest ∧ ds ≠ [] ∧
        (∀ c ∈ ds, c.isDigit = true) ∧ u ∈ tfUnits := by
  rw [← tfMatch_iff]
  by_cases h : tfMatch s = true
  · rw [config_timeframe_calc, if_neg (by simp [h])]
    simp only [h, not_true, iff_false]
    intro hcontra
    split at hcontra
    · exact absurd hcontra (by simp)
    · split at hcontra <;> exact absurd hcontra (by simp)
  · rw [config_timeframe_calc, if_pos (by simpa using h)]
    simp [h]

/-- On a matching string the call never aborts, whatever follows the
unit character. -/
theorem config_timeframe_calc_ok (ds : List Char) (u : Char) (rest : List Char)
    (hds : ds ≠ []) (hdig : ∀ c ∈ ds, c.isDigit = true) (hu : u ∈ tfUnits) :
    ∃ r, config_timeframe_calc (ds ++ u :: rest) = .ok r := by
  have hne : config_timeframe_calc (ds ++ u :: rest) ≠ .error () := by
    simp only [ne_eq, config_timeframe_calc_error_iff, not_not]
    exact ⟨ds, u, rest, rfl, hds, hdig, hu⟩
  rcases hc : config_timeframe_calc (ds ++ u :: rest) with e | r
  · cases e
    exact absurd hc hne
  · exact ⟨r, rfl⟩

/-- The duration actually assigned for an exact `<digits>m` / `<digits>h`
string, and the silent fall-through for `<digits>d`. -/
theorem config_timeframe_calc_exact (ds : List Char) (hds : ds ≠ [])
    (hdig : ∀ c ∈ ds, c.isDigit = true) :
    config_timeframe_calc (ds ++ ['m']) = .ok (some (digitsToInt ds * minute)) ∧
    config_timeframe_calc (ds ++ ['h']) = .ok (some (digitsToInt ds * hour)) ∧
    config_timeframe_calc (ds ++ ['d']) = .ok none := by
  refine ⟨?_, ?_, ?_⟩ <;>
  · first
    | (have hmatch : tfMatch (ds ++ ['m']) = true :=
        (tfMatch_iff _).mpr ⟨ds, 'm', [], rfl, hds, hdig, by decide⟩
       obtain ⟨h1, h2⟩ := takeWhile_all_append Char.isDigit ds 'm' [] hdig (by decide)
       rw [config_timeframe_calc, if_neg (by simp [hmatch]), h1, h2]
       simp)
    | (have hmatch : tfMatch (ds ++ ['h']) = true :=
        (tfMatch_iff _).mpr ⟨ds, 'h', [], rfl, hds, hdig, by decide⟩
       obtain ⟨h1, h2⟩ := takeWhile_all_append Char.isDigit ds 'h' [] hdig (by decide)
       rw [config_timeframe_calc, if_neg (by simp [hmatch]), h1, h2]
       simp)
    | (have hmatch : tfMatch (ds ++ ['d']) = true :=
        (tfMatch_iff _).mpr ⟨ds, 'd', [], rfl, hds, hdig, by decide⟩
       obtain ⟨h1, h2⟩ := takeWhile_all_append Char.isDigit ds 'd' [] hdig (by decide)
       rw [config_timeframe_calc, if_neg (by simp [hmatch]), h1, h2]
       simp)

/-! ## Claim C4 -/

/-- Claim C4 counterexample: the timeframe string "1d" is *not* rejected.
`config_timeframe_calc` returns normally — no `SystemExit` — and also
leaves the duration unset, refuting both "unknown unit (including d) is
rejected" and "for every string on which parsing succeeds the duration
value is set". -/
theorem claim_C4_counterexample : config_timeframe_calc ['1', 'd'] = .ok none := rfl

/-- Claim C4 (amended): `config_timeframe_calc` aborts with `SystemExit`
exactly when the string does not start with a nonempty digit run followed
by one of `m d h M D H`; on matching strings it never aborts, whatever
trailing characters follow (and whatever the count, zero included); and a
matching `d`-unit string returns with the duration left unset. -/
theorem claim_C4_amended :
    (∀ s : List Char, config_timeframe_calc s = .error () ↔
      ¬ ∃ ds u rest, s = ds ++ u :: rest ∧ ds ≠ [] ∧
          (∀ c ∈ ds, c.isDigit = true) ∧ u ∈ tfUnits) ∧
    (∀ ds u rest, ds ≠ [] → (∀ c ∈ ds, c.isDigit = true) → u ∈ tfUnits →
      ∃ r, config_timeframe_calc (ds ++ u :: rest) = .ok r) ∧
    (∀ ds, ds ≠ [] → (∀ c ∈ ds, c.isDigit = true) →
      config_timeframe_calc (ds ++ ['d']) = .ok none) :=
  ⟨config_timeframe_calc_error_iff,
   fun ds u rest h1 h2 h3 => config_timeframe_calc_ok ds u rest h1 h2 h3,
   fun ds h1 h2 => (config_timeframe_calc_exact ds h1 h2).2.2⟩

theorem claim_C4_amended_witness :
    (config_timeframe_calc ['5', 'x'] = .error () ↔
      ¬ ∃ ds u rest, (['5', 'x'] : List Char) = ds ++ u :: rest ∧ ds ≠ [] ∧
          (∀ c ∈ ds, c.isDigit = true) ∧ u ∈ tfUnits) ∧
    (∃ r, config_timeframe_calc (['5'] ++ 'm' :: ['x']) = .ok r) ∧
    config_timeframe_calc (['1'] ++ ['d']) = .ok none :=
  ⟨claim_C4_amended.1 ['5', 'x'],
   claim_C4_amended.2.1 ['5'] 'm' ['x'] (by decide) (by decide) (by decide),
   claim_C4_amended.2.2 ['1'] (by decide) (by decide)⟩

/-! ## Claim C5 -/

/-- Claim C5: for every valid timeframe string `<n>m` / `<n>h` with `n` a
positive integer (given as its decimal digits), `config_timeframe_calc`
sets the duration to exactly `n * 60000` resp. `n * 3600000`
milliseconds. -/
theorem claim_C5 (ds : List Char) (hds : ds ≠ [])
    (hdig : ∀ c ∈ ds, c.isDigit = true) (_hpos : 0 < digitsToInt ds) :
    config_timeframe_calc (ds ++ ['m']) = .ok (some (digitsToInt ds * 60000)) ∧
    config_timeframe_calc (ds ++ ['h']) = .ok (some (digitsToInt ds * 3600000)) := by
  obtain ⟨h1, h2, _⟩ := config_timeframe_calc_exact ds hds hdig
  constructor
  · rw [h1, show minute = 60000 from by norm_num [minute, msec]]
  · rw [h2, show hour = 3600000 from by norm_num [hour, minute, msec]]

theorem claim_C5_witness :
    ((['5'] : List Char) ≠ [] ∧ (∀ c ∈ (['5'] : List Char), c.isDigit = true) ∧
      0 < digitsToInt ['5']) ∧
    config_timeframe_calc (['5'] ++ ['m']) = .ok (some (digitsToInt ['5'] * 60000)) ∧
    config_timeframe_calc (['5'] ++ ['h']) = .ok (some (digitsToInt ['5'] * 3600000)) :=
  ⟨⟨by decide, by decide, by decide⟩, claim_C5 ['5'] (by decide) (by decide) (by decide)⟩

/-! ## Claim C6 -/

/-- Claim C6: for every window and positive duration the paginated
download loop terminates for *every* fetch oracle — including oracles
returning fewer candles than requested or none at all — because the
cursor advance (`min (data_to - cursor) (1000 * D)`, proved in
`downloadAdvance_eq`) never depends on the returned candles; `(data_to -
data_from).toNat` iterations always suffice. -/
theorem claim_C6 (fetch : Fetch) (pair : String) (data_from data_to D : Int)
    (hD : 1 ≤ D) :
    ∃ df, download_data_for_pair fetch pair data_from data_to D = some df :=
  download_data_for_pair_total fetch pair data_from data_to D hD

theorem claim_C6_witness :
    ∃ df, download_data_for_pair (fun _ _ => []) "BTC/USDT" 0 2500 1 = some df :=
  claim_C6 (fun _ _ => []) "BTC/USDT" 0 2500 1 (by norm_num)

/-! ## Claim C7 -/

def envC7 : ExchangeEnv :=
  ⟨true, true, true, ["1h"], fun _ => some 0, 999⟩

def cfgC7 : RunConfig := ⟨"binance", "1h", "2021-01-01", "2021-01-02", "Maybe"⟩

/-- Claim C7 counterexample: with the `backtesting-till-now` flag set to
`"Maybe"` (neither `"True"` nor `"False"`), `config_from_to` does *not*
abort: it prints an error message and returns normally, leaving
`backtesting_to` unset. -/
theorem claim_C7_counterexample :
    config_from_to envC7 cfgC7 = .ok ⟨some 0, none⟩ := rfl

/-- Claim C7 (amended): the exchange-related startup checks (unknown
exchange, missing OHLCV capability, unsupported timeframe) and a
malformed timeframe string all abort via `SystemExit`, but malformed
configuration dates do not: `config_from_to` always returns normally,
and an unrecognized till-now flag merely leaves `backtesting_to` unset
(a malformed date likewise flows through as `parse8601`'s `None`). -/
theorem claim_C7_amended (env : ExchangeEnv) (config : RunConfig) :
    (env.exchangeExists = false → load_exchange env config = .error ()) ∧
    (env.hasFetchOHLCV = false → load_exchange env config = .error ()) ∧
    (config.timeframe ∉ env.timeframes → load_exchange env config = .error ()) ∧
    (tfMatch config.timeframe.toList = false →
      config_timeframe_calc config.timeframe.toList = .error ()) ∧
    (∃ ft, config_from_to env config = .ok ft) ∧
    (config.backtesting_till_now ≠ "True" → config.backtesting_till_now ≠ "False" →
      config_from_to env config = .ok
        ⟨env.parse8601 (config.backtesting_from ++ "T00:00:00Z"), none⟩) := by
  refine ⟨?_, ?_, ?_, ?_, ?_, ?_⟩
  · intro h
    simp only [load_exchange, if_pos h]
  · intro h
    by_cases h1 : env.exchangeExists = false
    · simp only [load_exchange, if_pos h1]
    · simp only [load_exchange, if_neg h1, if_pos h]
  · intro h
    by_cases h1 : env.exchangeExists = false
    · simp only [load_exchange, if_pos h1]
    · by_cases h2 : env.hasFetchOHLCV = false
      · simp only [load_exchange, if_neg h1, if_pos h2]
      · simp only [load_exchange, if_neg h1, if_neg h2, if_pos (Or.inr h)]
  · intro h
    rw [config_timeframe_calc, if_pos h]
  · by_cases h1 : config.backtesting_till_now = "True"
    · exact ⟨⟨env.parse8601 (config.backtesting_from ++ "T00:00:00Z"), some env.milliseconds⟩,
        by simp only [config_from_to, if_pos h1]⟩
    · by_cases h2 : config.backtesting_till_now = "False"
      · exact ⟨⟨env.parse8601 (config.backtesting_from ++ "T00:00:00Z"),
            env.parse8601 (config.backtesting_to ++ "T00:00:00Z")⟩,
          by simp only [config_from_to, if_neg h1, if_pos h2]⟩
      · exact ⟨⟨env.parse8601 (config.backtesting_from ++ "T00:00:00Z"), none⟩,
          by simp only [config_from_to, if_neg h1, if_neg h2]⟩
  · intro h1 h2
    simp only [config_from_to, if_neg h1, if_neg h2]

theorem claim_C7_amended_witness :
    config_from_to envC7 cfgC7 = .ok
      ⟨envC7.parse8601 (cfgC7.backtesting_from ++ "T00:00:00Z"), none⟩ :=
  (claim_C7_amended envC7 cfgC7).2.2.2.2.2 (by decide) (by decide)

/-! ## Claim C8 -/

def sampleDf : List Row :=
  [⟨⟨0, 1, 1, 1, 1, 1⟩, "BTC/USDT"⟩, ⟨⟨60000, 1, 1, 1, 1, 1⟩, "BTC/USDT"⟩]

/-- Claim C8 counterexample: the top-level JSON value `save_dataframe`
writes is *not* a JSON array — `json.dump(df.to_json(...))` serialises
the already-serialised string, so the file holds a JSON string. -/
theorem claim_C8_counterexample :
    Json.isArr (save_dataframe_content sampleDf) = false := rfl

/-- Claim C8 (amended): after every persist the cache file's content is a
single JSON *string* (a double encoding) whose text is the rendering of
the array of records; each record carries the keys
`time, open, high, low, close, volume, pair` in that order, and the
records appear in the dataframe's row order, hence with nondecreasing
`time` whenever the saved frame is time-sorted. -/
theorem claim_C8_amended (df : List Row)
    (hsorted : List.Chain' (fun r s : Row => r.time ≤ s.time) df) :
    (∃ s, save_dataframe_content df = .str s ∧
      s = renderJson (.arr (df.map rowJson))) ∧
    (∀ r ∈ df, (rowJson r).keys =
      ["time", "open", "high", "low", "close", "volume", "pair"]) ∧
    List.Chain' (fun x y : Int => x ≤ y) (times df) := by
  refine ⟨⟨renderJson (.arr (df.map rowJson)), rfl, rfl⟩, fun r _ => rfl, ?_⟩
  rw [times, List.chain'_map]
  exact hsorted

theorem claim_C8_amended_witness :
    List.Chain' (fun r s : Row => r.time ≤ s.time) sampleDf ∧
    ((∃ s, save_dataframe_content sampleDf = .str s ∧
        s = renderJson (.arr (sampleDf.map rowJson))) ∧
      (∀ r ∈ sampleDf, (rowJson r).keys =
        ["time", "open", "high", "low", "close", "volume", "pair"]) ∧
      List.Chain' (fun x y : Int => x ≤ y) (times sampleDf)) :=
  ⟨List.chain'_cons.mpr ⟨show (0 : Int) ≤ 60000 from by norm_num, List.chain'_singleton _⟩,
   claim_C8_amended sampleDf
     (List.chain'_cons.mpr ⟨show (0 : Int) ≤ 60000 from by norm_num, List.chain'_singleton _⟩)⟩

/-! ## Claim C10 -/

/-- Claim C10 counterexample: on an empty file system, `check_datafolder`
(via `os.makedirs`) creates the ancestor directory `data`, which is a
directory outside `data/backtesting-data/binance` (it neither equals it
nor lies under it). -/
theorem claim_C10_counterexample :
    ["data"] ∈ (check_datafolder [] "binance" "BTC/USDT" "1h").2 ∧
    ¬ ((exchange_path "binance") <+: ["data"]) ∧
    ["data"] ≠ exchange_path "binance" := by
  refine ⟨?_, ?_, ?_⟩
  · rw [show (check_datafolder [] "binance" "BTC/USDT" "1h").2 =
        [["data"], ["data", "backtesting-data"], ["data", "backtesting-data", "binance"]]
      from rfl]
    simp
  · intro h
    have hlen := h.length_le
    simp [exchange_path] at hlen
  · intro h
    have hlen := congrArg List.length h
    simp [exchange_path] at hlen

/-- Claim C10 (amended): whenever the exchange directory is missing,
`check_datafolder` creates it together with its missing ancestor
directories (`data` and `data/backtesting-data` — so directories outside
`data/backtesting-data/<exchange>` itself can be created); everything any
operation creates or touches lies on the ancestor chain of the exchange
directory or strictly under it: created directories are prefixes of
`exchange_path`, and the files written by `save_dataframe` and removed by
`remove_backtesting_file` extend `exchange_path`. -/
theorem claim_C10_amended (fs : List FsPath) (exchange pair timeframe : String)
    (habs : exchange_path exchange ∉ fs) :
    exchange_path exchange ∈ (check_datafolder fs exchange pair timeframe).2 ∧
    (∀ p ∈ (check_datafolder fs exchange pair timeframe).2,
      p <+: exchange_path exchange) ∧
    (∀ p ∈ save_dataframe_touched exchange pair timeframe,
      exchange_path exchange <+: p) ∧
    (∀ p ∈ remove_backtesting_file_touched exchange pair timeframe,
      exchange_path exchange <+: p) := by
  have hmk : makedirsPaths (exchange_path exchange) =
      [["data"], ["data", "backtesting-data"], exchange_path exchange] := rfl
  refine ⟨?_, ?_, ?_, ?_⟩
  · rw [check_datafolder]
    simp only [if_neg habs, hmk]
    rw [List.mem_filter]
    constructor
    · simp
    · simpa using habs
  · intro p hp
    rw [check_datafolder] at hp
    simp only [if_neg habs, hmk] at hp
    have hp2 := List.mem_of_mem_filter hp
    simp only [List.mem_cons, List.not_mem_nil, or_false] at hp2
    rcases hp2 with rfl | rfl | rfl
    · exact ⟨["backtesting-data", exchange], rfl⟩
    · exact ⟨[exchange], rfl⟩
    · exact ⟨[], by simp⟩
  · intro p hp
    simp only [save_dataframe_touched, List.mem_singleton] at hp
    subst hp
    exact ⟨[generate_datafile_name pair timeframe], rfl⟩
  · intro p hp
    simp only [remove_backtesting_file_touched, List.mem_singleton] at hp
    subst hp
    exact ⟨[generate_datafile_name pair timeframe], rfl⟩

theorem claim_C10_amended_witness :
    exchange_path "kraken" ∉ ([] : List FsPath) ∧
    (exchange_path "kraken" ∈ (check_datafolder [] "kraken" "ETH/EUR" "5m").2 ∧
      (∀ p ∈ (check_datafolder [] "kraken" "ETH/EUR" "5m").2,
        p <+: exchange_path "kraken") ∧
      (∀ p ∈ save_dataframe_touched "kraken" "ETH/EUR" "5m",
        exchange_path "kraken" <+: p) ∧
      (∀ p ∈ remove_backtesting_file_touched "kraken" "ETH/EUR" "5m",
        exchange_path "kraken" <+: p)) :=
  ⟨by simp, claim_C10_amended [] "kraken" "ETH/EUR" "5m" (by simp)⟩

/-! ## Off-grid windows -/

theorem downloadLoop_done (fetch : Fetch) (D data_to : Int) (fuel : Nat)
    (start acc) (h : ¬ start < data_to) :
    downloadLoop fetch D data_to fuel start acc = some acc := by
  cases fuel <;> simp [downloadLoop, h]

/-- One-page download over a window `[a, a + n*D + r)` that is *not* a
multiple of the duration (`0 < r < D`, at most a page of candles): the
truncated request fetches `n` candles and the rounded advance
`round(asked_ticks * D) = n*D + r` jumps the cursor exactly to `data_to`,
so the loop stops — but the window's final bucket is never fetched. -/
theorem downloadLoop_ideal_offgrid (D : Int) (hD : 1 ≤ D) (a r : Int) (n : Nat)
    (hn : n ≤ 999) (hr : 0 < r) (hrD : r < D) (fuel : Nat) (acc : List Candle) :
    downloadLoop (idealFetch D) D (a + n * D + r) (fuel + 1) a acc =
      some (acc ++ progC a D n) := by
  have hnD : (0 : Int) ≤ (n : Int) * D := mul_nonneg (Int.natCast_nonneg n) (by omega)
  have h999 : (n : Int) * D ≤ 999 * D :=
    mul_le_mul_of_nonneg_right (by exact_mod_cast hn) (by omega)
  have hs : a < a + n * D + r := by omega
  have hD0 : (0 : ℚ) < ((D : Int) : ℚ) := by exact_mod_cast (by omega : (0 : ℤ) < D)
  simp only [downloadLoop, if_pos hs]
  rw [show a + (n : Int) * D + r - a = (n : Int) * D + r from by ring]
  have hmin : min ((((n : Int) * D + r : Int) : ℚ) / ((D : Int) : ℚ)) fetch_ohlcv_limit
      = (((n : Int) * D + r : Int) : ℚ) / ((D : Int) : ℚ) := by
    apply min_eq_left
    rw [fetch_ohlcv_limit, div_le_iff₀ hD0]
    have hle : ((n : Int) * D + r : Int) ≤ 1000 * D := by linarith
    calc (((n : Int) * D + r : Int) : ℚ) ≤ ((1000 * D : Int) : ℚ) := by exact_mod_cast hle
      _ = 1000 * ((D : Int) : ℚ) := by push_cast; ring
  rw [hmin]
  have hfloor : ⌊(((n : Int) * D + r : Int) : ℚ) / ((D : Int) : ℚ)⌋ = (n : Int) := by
    rw [Int.floor_eq_iff]
    constructor
    · rw [le_div_iff₀ hD0]
      have : ((n : Int) * D : Int) ≤ (n : Int) * D + r := by omega
      calc ((n : Int) : ℚ) * ((D : Int) : ℚ) = (((n : Int) * D : Int) : ℚ) := by push_cast; ring
        _ ≤ (((n : Int) * D + r : Int) : ℚ) := by exact_mod_cast this
    · rw [div_lt_iff₀ hD0]
      have hlt : ((n : Int) * D + r : Int) < ((n : Int) + 1) * D := by nlinarith
      calc (((n : Int) * D + r : Int) : ℚ) < ((((n : Int) + 1) * D : Int) : ℚ) := by
            exact_mod_cast hlt
        _ = (((n : Int) : ℚ) + 1) * ((D : Int) : ℚ) := by push_cast; ring
  rw [hfloor, show ((n : Int)).toNat = n from by omega]
  rw [div_mul_cancel₀ _ (ne_of_gt hD0), round_intCast, idealFetch_eq_progC]
  exact downloadLoop_done _ _ _ _ _ _ (by omega)

theorem download_data_for_pair_ideal_offgrid (D : Int) (hD : 1 ≤ D) (pair : String)
    (a data_to r : Int) (n : Nat) (hn : n ≤ 999) (hr : 0 < r) (hrD : r < D)
    (hto : data_to = a + n * D + r) :
    download_data_for_pair (idealFetch D) pair a data_to D =
      some (progR pair a D n) := by
  subst hto
  have hnD : (0 : Int) ≤ (n : Int) * D := mul_nonneg (Int.natCast_nonneg n) (by omega)
  obtain ⟨f, hf⟩ : ∃ f, downloadFuel a (a + n * D + r) = f + 1 := by
    refine ⟨downloadFuel a (a + n * D + r) - 1, ?_⟩
    unfold downloadFuel
    omega
  rw [download_data_for_pair, hf, downloadLoop_ideal_offgrid D hD a r n hn hr hrD f []]
  simp [progR]

/-! ## Claim C1 -/

/-- Claim C1 counterexample: at duration 2 with the cache holding buckets
`[0, 2]` and the (ideal) exchange, the request for window `[0, 8)`
returns a series with timestamps `[0, 2, 2, 4, 6]`: bucket 2 is
duplicated, violating "no duplicate timestamps" and "consecutive
timestamps each differ by exactly duration_ms", so the per-pair get is
not exact for every prior cache state. -/
theorem claim_C1_counterexample :
    (load_historical_data_pair (idealFetch 2) 2 0 8 "A/B"
        (.valid (progR "A/B" 0 2 2))).result =
      .series (progR "A/B" 0 2 2 ++ progR "A/B" 2 2 3) ∧
    times (progR "A/B" 0 2 2 ++ progR "A/B" 2 2 3) = [0, 2, 2, 4, 6] ∧
    ¬ (times (progR "A/B" 0 2 2 ++ progR "A/B" 2 2 3)).Nodup := by
  have h := getPair_extension 2 (by norm_num) "A/B" 0 2 0 2 (by norm_num) (by norm_num)
  norm_num at h
  refine ⟨?_, ?_, ?_⟩
  · rw [h]
  · rw [times_append, times_progR, times_progR]
    decide
  · rw [times_append, times_progR, times_progR]
    decide

/-- Claim C1 (amended): with *no* cache file, a window whose length is a
positive multiple of the duration, and the exchange returning exactly the
requested candles, the per-pair get returns a Series whose first
timestamp is `window.from`, whose last is `window.to - duration_ms`, with
consecutive timestamps differing by exactly `duration_ms` and no
duplicates.  (With a pre-existing cache the guarantee fails as soon as
the window extends past the cached end: the "after" download starts at
the cached last bucket and duplicates it.) -/
theorem claim_C1_amended (D : Int) (hD : 1 ≤ D) (pair : String) (b : Int)
    (N : Nat) (hN : 1 ≤ N) :
    ∃ df, (load_historical_data_pair (idealFetch D) D b (b + N * D) pair .absent).result
        = .series df ∧
      (times df).head? = some b ∧
      (times df).getLast? = some (b + N * D - D) ∧
      List.Chain' (fun x y => y - x = D) (times df) ∧
      (times df).Nodup := by
  refine ⟨progR pair b D N, ?_, ?_, ?_, ?_, ?_⟩
  · rw [getPair_fresh D hD pair b N]
  · rw [times_progR, progI_head? b D N hN]
  · rw [times_progR, progI_getLast? b D N hN]
    congr 1
    ring
  · rw [times_progR]
    exact progI_chain' b D N
  · rw [times_progR]
    exact progI_nodup b D N hD

theorem claim_C1_amended_witness :
    ∃ df, (load_historical_data_pair (idealFetch 2) 2 0 ((0 : Int) + (3 : Nat) * 2)
        "A/B" .absent).result = .series df ∧
      (times df).head? = some 0 ∧
      (times df).getLast? = some ((0 : Int) + (3 : Nat) * 2 - 2) ∧
      List.Chain' (fun x y => y - x = 2) (times df) ∧
      (times df).Nodup :=
  claim_C1_amended 2 (by norm_num) "A/B" 0 3 (by norm_num)

/-! ## Claim C2 -/

theorem mem_progI (a D : Int) {i n : Nat} (h : i < n) :
    a + (i : Int) * D ∈ progI a D n := by
  simp only [progI, List.mem_map, List.mem_range]
  exact ⟨i, h, rfl⟩

theorem self_mem_progI (a D : Int) {n : Nat} (h : 1 ≤ n) : a ∈ progI a D n := by
  have hmem := mem_progI a D (show 0 < n from h)
  simpa using hmem

/-- The read path when the request extends the cache only backwards
(`window.to = T1 + D`, i.e. `m = 0`): no "after" download happens and the
slice is the whole `(k+n)`-grid. -/
theorem getPair_extension_noafter (D : Int) (hD : 1 ≤ D) (pair : String) (T0 : Int)
    (n k : Nat) (hn : 1 ≤ n) :
    load_historical_data_pair (idealFetch D) D (T0 - k * D)
        (T0 + ((n : Int) - 1) * D + D) pair (.valid (progR pair T0 D n)) =
      ⟨.series (progR pair (T0 - k * D) D (k + n)),
        .valid (progR pair (T0 - k * D) D (k + n)),
        if k = 0 then [] else [⟨T0 - k * D, T0, false⟩]⟩ := by
  have hb := readStageBefore_ideal D hD pair T0 n k
  have ha : readStageAfter (idealFetch D) D (T0 + ((n : Int) - 1) * D + D) pair
      (progR pair (T0 - k * D) D (k + n)) (T0 + ((n : Int) - 1) * D) =
      some (progR pair (T0 - k * D) D (k + n), []) := by
    rw [readStageAfter, if_neg (by omega)]
  have hsl : readSlice (progR pair (T0 - k * D) D (k + n)) (T0 - k * D)
      (T0 + ((n : Int) - 1) * D) = some (progR pair (T0 - k * D) D (k + n)) := by
    have h := readSlice_whole D hD pair (T0 - k * D) (k + n) (by omega)
    rwa [show T0 - (k : Int) * D + (((k + n : Nat) : Int) - 1) * D
          = T0 + ((n : Int) - 1) * D from by push_cast; ring] at h
  rw [load_historical_data_pair,
    show fileExists (.valid (progR pair T0 D n)) = true from rfl]
  simp only [if_true]
  rw [read_data_from_datafile, progR_head? pair T0 D n hn, progR_getLast? pair T0 D n hn]
  simp [readWithBounds, mkC, hb, ha, hsl]

/-- Claim C2 counterexample: duration 2, cache covering buckets `[0, 2]`
(`T0 = 0`, `T1 = 2`), request `[0, 6)` (`k = 0`, `m = 1`).  The claim
predicts a download over `(2, 6)` exclusive of 2 and `(2-0)/2 + 0 + 1 + 1
= 3` strictly increasing candles; the code downloads `[2, 6)` starting at
the cached last bucket 2 (the logged call is `(2, 6)` and the fetch at
`since = 2` returns bucket 2 again), yielding 4 candles that are not
strictly increasing. -/
theorem claim_C2_counterexample :
    (load_historical_data_pair (idealFetch 2) 2 0 6 "A/B"
        (.valid (progR "A/B" 0 2 2))).result =
      .series (progR "A/B" 0 2 2 ++ progR "A/B" 2 2 2) ∧
    (load_historical_data_pair (idealFetch 2) 2 0 6 "A/B"
        (.valid (progR "A/B" 0 2 2))).downloads = [⟨2, 6, false⟩] ∧
    (progR "A/B" 0 2 2 ++ progR "A/B" 2 2 2).length = 4 ∧
    ¬ List.Chain' (fun x y : Int => x < y)
        (times (progR "A/B" 0 2 2 ++ progR "A/B" 2 2 2)) := by
  have h := getPair_extension 2 (by norm_num) "A/B" 0 2 0 1 (by norm_num) (by norm_num)
  norm_num at h
  refine ⟨?_, ?_, ?_, ?_⟩
  · rw [h]
  · rw [h]
  · decide
  · rw [times_append, times_progR, times_progR,
      show progI 0 2 2 ++ progI 2 2 2 = [0, 2, 2, 4] from by decide]
    norm_num [List.chain'_cons]

/-- Claim C2 (amended): given a cache covering `[T0, T1]` (`n` aligned
buckets) and a request for `[T0 - k*D, T1 + (m+1)*D)` with `m ≥ 1`, get
downloads the "after" segment over `[cached_to, window.to)` *inclusive*
of `cached_to`, and the resulting (and re-persisted) series is the
`(k+n)`-grid from `T0 - k*D` followed by the `(m+1)`-grid from `T1`:
exactly `(T1-T0)/D + k + m + 2 = n + k + m + 1` candles, one more than
the claimed count, with the timestamp `T1` duplicated (so the timestamps
are not strictly increasing); the cache file afterward covers the full
extended range. -/
theorem claim_C2_amended (D : Int) (hD : 1 ≤ D) (pair : String) (T0 : Int)
    (n k m : Nat) (hn : 1 ≤ n) (hm : 1 ≤ m) :
    load_historical_data_pair (idealFetch D) D (T0 - k * D)
        (T0 + ((n : Int) - 1) * D + ((m + 1 : Nat) : Int) * D) pair
        (.valid (progR pair T0 D n)) =
      ⟨.series (progR pair (T0 - k * D) D (k + n) ++
          progR pair (T0 + ((n : Int) - 1) * D) D (m + 1)),
        .valid (progR pair (T0 - k * D) D (k + n) ++
          progR pair (T0 + ((n : Int) - 1) * D) D (m + 1)),
        (if k = 0 then [] else [⟨T0 - k * D, T0, false⟩]) ++
          [⟨T0 + ((n : Int) - 1) * D,
            T0 + ((n : Int) - 1) * D + ((m + 1 : Nat) : Int) * D, false⟩]⟩ ∧
    (progR pair (T0 - k * D) D (k + n) ++
        progR pair (T0 + ((n : Int) - 1) * D) D (m + 1)).length = n + k + m + 1 ∧
    ¬ (times (progR pair (T0 - k * D) D (k + n) ++
        progR pair (T0 + ((n : Int) - 1) * D) D (m + 1))).Nodup ∧
    load_historical_data_pair (idealFetch D) D (T0 - k * D)
        (T0 + ((n : Int) - 1) * D + D) pair (.valid (progR pair T0 D n)) =
      ⟨.series (progR pair (T0 - k * D) D (k + n)),
        .valid (progR pair (T0 - k * D) D (k + n)),
        if k = 0 then [] else [⟨T0 - k * D, T0, false⟩]⟩ ∧
    (progR pair (T0 - k * D) D (k + n)).length = n + k := by
  refine ⟨getPair_extension D hD pair T0 n k m hn hm, ?_, ?_,
    getPair_extension_noafter D hD pair T0 n k hn, by rw [progR_length]; omega⟩
  · simp only [List.length_append, progR_length]
    omega
  · rw [times_append, times_progR, times_progR]
    intro hnd
    rw [List.nodup_append] at hnd
    have hmem1 : T0 + ((n : Int) - 1) * D ∈ progI (T0 - k * D) D (k + n) := by
      have h := mem_progI (T0 - k * D) D (show k + n - 1 < k + n from by omega)
      rwa [show T0 - (k : Int) * D + ((k + n - 1 : Nat) : Int) * D
            = T0 + ((n : Int) - 1) * D from by
        push_cast [Nat.cast_sub (show 1 ≤ k + n from by omega)]
        ring] at h
    have hmem2 : T0 + ((n : Int) - 1) * D ∈
        progI (T0 + ((n : Int) - 1) * D) D (m + 1) :=
      self_mem_progI _ D (by omega)
    exact hnd.2.2 hmem1 hmem2

theorem claim_C2_amended_witness :
    (progR "A/B" ((0 : Int) - (1 : Nat) * 2) 2 (1 + 1) ++
        progR "A/B" ((0 : Int) + (((1 : Nat) : Int) - 1) * 2) 2 (1 + 1)).length
      = 1 + 1 + 1 + 1 :=
  (claim_C2_amended 2 (by norm_num) "A/B" 0 1 1 1 (by norm_num) (by norm_num)).2.1

/-! ## Claim C3 -/

/-- Claim C3 counterexample: an *unreadable* cache file does not behave
like "no cache": `read_data_from_datafile` returns Python `False`, which
`load_historical_data` stores for the consumer — no download happens and
no Series is produced; an invalid-JSON file raises an uncaught exception
(`json.loads` sits outside the `try`); only the absent-file case falls
back to the full download. -/
theorem claim_C3_counterexample :
    load_historical_data_pair (idealFetch 2) 2 0 4 "A/B" .unreadable =
      ⟨.sentinelFalse, .unreadable, []⟩ ∧
    (load_historical_data_pair (idealFetch 2) 2 0 4 "A/B" .invalidJson).result = .fatal ∧
    (load_historical_data_pair (idealFetch 2) 2 0 4 "A/B" .absent).result =
      .series (progR "A/B" 0 2 2) := by
  refine ⟨rfl, rfl, ?_⟩
  rw [show (4 : Int) = 0 + (2 : Nat) * 2 from by norm_num,
    getPair_fresh 2 (by norm_num) "A/B" 0 2]

/-- Claim C3 (amended): only an absent cache file routes to the
full-download path (via `check_datafolder`).  An unreadable file makes
`read_data_from_datafile` return the sentinel `False` — stored as the
pair's "series", with no download and no fatal error; a file with invalid
JSON raises an uncaught exception; in neither case is the file
overwritten or a download performed. -/
theorem claim_C3_amended (fetch : Fetch) (D bt_from bt_to : Int) (pair : String) :
    load_historical_data_pair fetch D bt_from bt_to pair .unreadable =
      ⟨.sentinelFalse, .unreadable, []⟩ ∧
    load_historical_data_pair fetch D bt_from bt_to pair .invalidJson =
      ⟨.fatal, .invalidJson, []⟩ ∧
    (∀ df, download_data_for_pair fetch pair bt_from bt_to D = some df →
      load_historical_data_pair fetch D bt_from bt_to pair .absent =
        ⟨.series df, .valid df, [⟨bt_from, bt_to, true⟩]⟩) := by
  refine ⟨rfl, rfl, fun df hdf => ?_⟩
  rw [load_historical_data_pair]
  simp [fileExists, hdf]

theorem claim_C3_amended_witness :
    load_historical_data_pair (idealFetch 2) 2 0 6 "A/B" .unreadable =
      ⟨.sentinelFalse, .unreadable, []⟩ ∧
    load_historical_data_pair (idealFetch 2) 2 0 6 "A/B" .invalidJson =
      ⟨.fatal, .invalidJson, []⟩ ∧
    load_historical_data_pair (idealFetch 2) 2 0 6 "A/B" .absent =
      ⟨.series (progR "A/B" 0 2 3), .valid (progR "A/B" 0 2 3), [⟨0, 6, true⟩]⟩ :=
  ⟨(claim_C3_amended (idealFetch 2) 2 0 6 "A/B").1,
   (claim_C3_amended (idealFetch 2) 2 0 6 "A/B").2.1,
   (claim_C3_amended (idealFetch 2) 2 0 6 "A/B").2.2 (progR "A/B" 0 2 3)
     (by rw [show (6 : Int) = 0 + (3 : Nat) * 2 from by norm_num,
           download_data_for_pair_ideal 2 (by norm_num) "A/B" 0 3])⟩

/-! ## Claim C9 -/

/-- Claim C9 counterexample: duration 2, no cache, window `[0, 5)` (not a
multiple of the duration — exactly what the "till now" mode produces).
The first call downloads buckets `[0, 2]` and persists them.  The second
call is *not* byte-identical to the first: it triggers a gap-fill
download over `(2, 5)` and then dies with the `ValueError` of
`list.index` (`final_timestamp = 3` is on no bucket), so it returns no
Series at all. -/
theorem claim_C9_counterexample :
    (load_historical_data_pair (idealFetch 2) 2 0 5 "A/B" .absent).result
        = .series (progR "A/B" 0 2 2) ∧
    (load_historical_data_pair (idealFetch 2) 2 0 5 "A/B" .absent).cache
        = .valid (progR "A/B" 0 2 2) ∧
    (load_historical_data_pair (idealFetch 2) 2 0 5 "A/B"
        (.valid (progR "A/B" 0 2 2))).result = .fatal ∧
    (load_historical_data_pair (idealFetch 2) 2 0 5 "A/B"
        (.valid (progR "A/B" 0 2 2))).downloads = [⟨2, 5, false⟩] := by
  have hdl1 : download_data_for_pair (idealFetch 2) "A/B" 0 5 2 =
      some (progR "A/B" 0 2 2) :=
    download_data_for_pair_ideal_offgrid 2 (by norm_num) "A/B" 0 5 1 2
      (by norm_num) (by norm_num) (by norm_num) (by norm_num)
  have hdl2 : download_data_for_pair (idealFetch 2) "A/B" 2 5 2 =
      some (progR "A/B" 2 2 1) :=
    download_data_for_pair_ideal_offgrid 2 (by norm_num) "A/B" 2 5 1 1
      (by norm_num) (by norm_num) (by norm_num) (by norm_num)
  have hfirst : load_historical_data_pair (idealFetch 2) 2 0 5 "A/B" .absent =
      ⟨.series (progR "A/B" 0 2 2), .valid (progR "A/B" 0 2 2), [⟨0, 5, true⟩]⟩ := by
    rw [load_historical_data_pair]
    simp [fileExists, hdl1]
  have hb : readStageBefore (idealFetch 2) 2 0 "A/B" (progR "A/B" 0 2 2) 0 =
      some (progR "A/B" 0 2 2, []) := by
    rw [readStageBefore]
    simp
  have ha : readStageAfter (idealFetch 2) 2 5 "A/B" (progR "A/B" 0 2 2) 2 =
      some (progR "A/B" 0 2 2 ++ progR "A/B" 2 2 1, [⟨2, 5, false⟩]) := by
    rw [readStageAfter, if_pos (by norm_num : (5 : Int) - 2 > 2), hdl2]
  have hslice : readSlice (progR "A/B" 0 2 2 ++ progR "A/B" 2 2 1) 0 3 = none := by
    rw [readSlice, times_append, times_progR, times_progR,
      show progI 0 2 2 ++ progI 2 2 1 = [0, 2, 2] from by decide,
      show listIndex 0 [0, 2, 2] = some 0 from by decide,
      show listIndex 3 [0, 2, 2] = none from by decide]
  have hsecond : load_historical_data_pair (idealFetch 2) 2 0 5 "A/B"
      (.valid (progR "A/B" 0 2 2)) =
      ⟨.fatal, .valid (progR "A/B" 0 2 2), [⟨2, 5, false⟩]⟩ := by
    rw [load_historical_data_pair,
      show fileExists (.valid (progR "A/B" 0 2 2)) = true from rfl]
    simp only [if_true]
    rw [read_data_from_datafile, progR_head? "A/B" 0 2 2 (by norm_num),
      progR_getLast? "A/B" 0 2 2 (by norm_num)]
    norm_num [readWithBounds, mkC, hb, ha, hslice]
  rw [hfirst, hsecond]
  exact ⟨rfl, rfl, rfl, rfl⟩

/-- Claim C9 (amended): with an ideal exchange and a window whose length
is a positive multiple of the duration, a first call with no cache
persists exactly what it returns, and a second call reads that cache
back, triggers no downloads, and returns the identical Series. -/
theorem claim_C9_amended (D : Int) (hD : 1 ≤ D) (pair : String) (b : Int)
    (N : Nat) (hN : 1 ≤ N) :
    (load_historical_data_pair (idealFetch D) D b (b + N * D) pair .absent).result
        = .series (progR pair b D N) ∧
    load_historical_data_pair (idealFetch D) D b (b + N * D) pair
        (load_historical_data_pair (idealFetch D) D b (b + N * D) pair .absent).cache =
      ⟨(load_historical_data_pair (idealFetch D) D b (b + N * D) pair .absent).result,
        (load_historical_data_pair (idealFetch D) D b (b + N * D) pair .absent).cache,
        []⟩ := by
  rw [getPair_fresh D hD pair b N]
  exact ⟨rfl, getPair_cached_exact D hD pair b N hN⟩

theorem claim_C9_amended_witness :
    (load_historical_data_pair (idealFetch 2) 2 0 ((0 : Int) + (2 : Nat) * 2)
        "A/B" .absent).result = .series (progR "A/B" 0 2 2) :=
  (claim_C9_amended 2 (by norm_num) "A/B" 0 2 (by norm_num)).1
